import Mathlib

/-!
Shallow embedding of `src/scripts/gather.ts`, the release enrichment pipeline:
version-tag parsing and classification, release normalization, chronological
sorting, per-release enrichment against injectable lookup services (the
network is modelled as a record of response functions), paginated fetching
(modelled with explicit fuel, since the source loop is bounded only by the
service's responses), and CSV export.

Modelling conventions:
* JavaScript numbers that can only be integers here are `Int`/`Nat`; `NaN`
  results (from invalid timestamps) are `Option.none`, and JS `null`
  values in nullable fields are also `Option.none` of a separately typed
  field, so the two are never conflated in one field.
* Timestamps: the source receives ISO-8601 `YYYY-MM-DDTHH:MM:SSZ` strings
  from the API. `parseISOZ` models `new Date(...)`/`parseISO` on exactly
  that shape (a UTC runtime is assumed, matching the instant's calendar
  fields); any other string is an invalid date (`none`).
* `Date` comparison on sliced `YYYY-MM-DD` strings (`parseDate10`) models
  the date-only ISO parse; comparisons where either side is invalid are
  `false`, as in JS (`NaN` comparisons).
* The sort comparator maps an invalid timestamp to key 0; the source's
  behaviour there is engine-dependent (comparator returns `NaN`), and no
  claim exercises it.
-/

namespace Gather

/-! ### Version classifier (`parseVersionTag`, `computeReleaseFlags`) -/

structure ReleaseFlags where
  is_major_release : Bool
  is_minor_release : Bool
  is_patch_release : Bool
deriving DecidableEq, Repr

def allFalseFlags : ReleaseFlags := ⟨false, false, false⟩

def majorOnlyFlags : ReleaseFlags := ⟨true, false, false⟩

/-- Numeric value of a digit run, as JS `Number` on a digit string. -/
def digitsVal (ds : List Char) : Nat :=
  ds.foldl (fun a c => a * 10 + (c.toNat - 48)) 0

/-- Match `(\d+)\.(\d+)\.(\d+)` at the start of `cs` (greedy digit runs,
as the regex in `parseVersionTag`). -/
def matchCore (cs : List Char) : Option (Nat × Nat × Nat) :=
  let p1 := cs.span Char.isDigit
  if p1.1.isEmpty then none else
  match p1.2 with
  | '.' :: rest2 =>
    let p2 := rest2.span Char.isDigit
    if p2.1.isEmpty then none else
    match p2.2 with
    | '.' :: rest4 =>
      let p3 := rest4.span Char.isDigit
      if p3.1.isEmpty then none else
      some (digitsVal p1.1, digitsVal p2.1, digitsVal p3.1)
    | _ => none
  | _ => none

/-- First match of `v?(\d+)\.(\d+)\.(\d+)` scanning left to right, as the
JS regex engine does for `tag.match(...)`: at a position holding `v` the
optional prefix is consumed (the pattern cannot match there without it,
since `v` is not a digit). -/
def matchFrom : List Char → Option (Nat × Nat × Nat)
  | [] => none
  | c :: rest =>
    match (if c = 'v' then matchCore rest else matchCore (c :: rest)) with
    | some t => some t
    | none => matchFrom rest

def parseVersionTag (tag : String) : Option (Nat × Nat × Nat) :=
  matchFrom tag.toList

/-- JS falsiness of a possibly-absent string: `undefined`/`null` or `""`. -/
def jsFalsyStr : Option String → Bool
  | none => true
  | some s => s == ""

/-- `computeReleaseFlags` from the source: `currTag` may be absent at
runtime (the raw record's `tag_name`), `prevTag` is
`prev?.tag_name ?? null`. -/
def computeReleaseFlags (currTag prevTag : Option String) : ReleaseFlags :=
  if jsFalsyStr currTag then allFalseFlags else
  match parseVersionTag (currTag.getD "") with
  | none => allFalseFlags
  | some curr =>
    if jsFalsyStr prevTag then majorOnlyFlags else
    match parseVersionTag (prevTag.getD "") with
    | none => allFalseFlags
    | some prev =>
      if curr.1 ≠ prev.1 then ⟨true, false, false⟩
      else if curr.2.1 ≠ prev.2.1 then ⟨false, true, false⟩
      else if curr.2.2 ≠ prev.2.2 then ⟨false, false, true⟩
      else allFalseFlags

/-! ### Timestamps -/

structure CivilTime where
  year : Nat
  month : Nat
  day : Nat
  hour : Nat
  minute : Nat
  second : Nat
deriving DecidableEq, Repr

def digit2 (a b : Char) : Option Nat :=
  if a.isDigit && b.isDigit then some ((a.toNat - 48) * 10 + (b.toNat - 48)) else none

def digit4 (a b c d : Char) : Option Nat :=
  if a.isDigit && b.isDigit && c.isDigit && d.isDigit then
    some ((((a.toNat - 48) * 10 + (b.toNat - 48)) * 10 + (c.toNat - 48)) * 10 + (d.toNat - 48))
  else none

/-- Parse an ISO-8601 `YYYY-MM-DDTHH:MM:SSZ` timestamp (the shape the
hosting API returns); anything else is an invalid date. -/
def parseISOZ (s : String) : Option CivilTime :=
  match s.toList with
  | [y1, y2, y3, y4, '-', m1, m2, '-', d1, d2, 'T', h1, h2, ':', n1, n2, ':', s1, s2, 'Z'] =>
    match digit4 y1 y2 y3 y4, digit2 m1 m2, digit2 d1 d2, digit2 h1 h2, digit2 n1 n2, digit2 s1 s2 with
    | some y, some mo, some dd, some hh, some mi, some ss =>
      if 1 ≤ mo && mo ≤ 12 && 1 ≤ dd && dd ≤ 31 && hh ≤ 23 && mi ≤ 59 && ss ≤ 59 then
        some ⟨y, mo, dd, hh, mi, ss⟩
      else none
    | _, _, _, _, _, _ => none
  | _ => none

/-- Days from civil date for a year shifted up by 400 (so all intermediate
values are natural numbers); standard Gregorian day-count algorithm. -/
def daysFromCivilShifted (y m d : Nat) : Nat :=
  let yAdj := if m ≤ 2 then y - 1 else y
  let era := yAdj / 400
  let yoe := yAdj % 400
  let mp := (m + 9) % 12
  let doy := (153 * mp + 2) / 5 + d - 1
  let doe := yoe * 365 + yoe / 4 - yoe / 100 + doy
  era * 146097 + doe

/-- Days since the Unix epoch of a civil date (400-year shift keeps the
natural-number core total). -/
def epochDays (y m d : Nat) : Int :=
  (daysFromCivilShifted (y + 400) m d : Int) - 146097 - 719468

/-- `new Date(s).getTime()` for a valid `YYYY-MM-DDTHH:MM:SSZ` string, in
milliseconds since the epoch; `none` is `NaN` (invalid date). -/
def jsTime (s : String) : Option Int :=
  (parseISOZ s).map fun t =>
    epochDays t.year t.month t.day * 86400000 +
      (t.hour * 3600000 + t.minute * 60000 + t.second * 1000 : Nat)

/-- date-fns `differenceInDays(later, earlier)`: full days, truncated
toward zero (UTC runtime, so no DST adjustment). -/
def differenceInDays (tLater tEarlier : Int) : Int :=
  (tLater - tEarlier).tdiv 86400000

/-- Parse a date-only `YYYY-MM-DD` string as `new Date(...)` does. -/
def parseDate10 (s : String) : Option (Nat × Nat × Nat) :=
  match s.toList with
  | [y1, y2, y3, y4, '-', m1, m2, '-', d1, d2] =>
    match digit4 y1 y2 y3 y4, digit2 m1 m2, digit2 d1 d2 with
    | some y, some mo, some dd =>
      if 1 ≤ mo && mo ≤ 12 && 1 ≤ dd && dd ≤ 31 then some (y, mo, dd) else none
    | _, _, _ => none
  | _ => none

def triLt (x y : Nat × Nat × Nat) : Bool :=
  x.1 < y.1 || (x.1 = y.1 && (x.2.1 < y.2.1 || (x.2.1 = y.2.1 && x.2.2 < y.2.2)))

/-- `new Date(a) > new Date(b)` on date-only strings: `false` whenever
either side is an invalid date (as `NaN` comparisons are in JS). -/
def jsDateGt (a b : String) : Bool :=
  match parseDate10 a, parseDate10 b with
  | some x, some y => triLt y x
  | _, _ => false

/-! ### Data model -/

structure RawAsset where
  size : Option Int
  download_count : Option Int
deriving DecidableEq, Repr

structure RawAuthor where
  login : Option String
deriving DecidableEq, Repr

/-- The loosely-typed release record from the listing API; optional fields
model `undefined`/`null` reads that the normalizer defends against. -/
structure RawRelease where
  id : Int
  tag_name : Option String
  name : Option String
  draft : Option Bool
  prerelease : Option Bool
  author : Option RawAuthor
  created_at : String
  published_at : String
  body : Option String
  assets : Option (List RawAsset)
  target_commitish : Option String
deriving DecidableEq, Repr

structure Release where
  id : Int
  tag_name : Option String
  name : String
  draft : Bool
  prerelease : Bool
  author_login : String
  created_at : String
  published_at : String
  body_length : Nat
  num_assets : Nat
  total_asset_size : Int
  total_asset_downloads : Int
  target_commitish : String
  days_to_publish : Option Int
  release_day_of_week : Option Nat
  release_hour : Option Nat
  first_release_flag : Bool
  is_major_release : Bool
  is_minor_release : Bool
  is_patch_release : Bool
  num_commits_since_last_release : Option Nat
  num_issues_closed : Option Nat
  num_pull_requests : Option Nat
deriving DecidableEq, Repr

/-! ### Release normalizer (`processReleases`) -/

/-- One iteration of the `processReleases` loop: builds the normalized
record for `r`, whose predecessor by array position is `prev` (`none` at
index 0, where `isFirst` is `true`). -/
def processOne (isFirst : Bool) (prev : Option RawRelease) (r : RawRelease) : Release :=
  let assets := r.assets.getD []
  let flags := computeReleaseFlags r.tag_name (prev.bind fun p => p.tag_name)
  { id := r.id
    tag_name := r.tag_name
    name := r.name.getD ""
    draft := r.draft.getD false
    prerelease := r.prerelease.getD false
    author_login := (r.author.bind fun a => a.login).getD ""
    created_at := r.created_at
    published_at := r.published_at
    body_length := match r.body with | some s => s.length | none => 0
    num_assets := assets.length
    total_asset_size := assets.foldl (fun acc a => acc + a.size.getD 0) 0
    total_asset_downloads := assets.foldl (fun acc a => acc + a.download_count.getD 0) 0
    target_commitish := r.target_commitish.getD ""
    days_to_publish :=
      match jsTime r.published_at, jsTime r.created_at with
      | some tp, some tc => some (differenceInDays tp tc)
      | _, _ => none
    release_day_of_week := (parseISOZ r.published_at).map fun t =>
      ((epochDays t.year t.month t.day + 4) % 7).toNat
    release_hour := (parseISOZ r.published_at).map fun t => t.hour
    first_release_flag := isFirst
    is_major_release := flags.is_major_release
    is_minor_release := flags.is_minor_release
    is_patch_release := flags.is_patch_release
    num_commits_since_last_release := none
    num_issues_closed := none
    num_pull_requests := none }

def processAux (prev : Option RawRelease) (isFirst : Bool) : List RawRelease → List Release
  | [] => []
  | r :: rest => processOne isFirst prev r :: processAux (some r) false rest

def processReleases (rawReleases : List RawRelease) (owner repo : String) : List Release :=
  processAux none true rawReleases

/-! ### Chronological sequencer -/

/-- Sort key: `new Date(r.published_at).getTime()`; an invalid timestamp
is keyed 0 (see the header note). -/
def releaseKey (r : Release) : Int :=
  (jsTime r.published_at).getD 0

/-- `releases.sort((a, b) => timeA - timeB)`: a stable sort (guaranteed
since ES2019) by ascending publish time. -/
def sortReleases (rs : List Release) : List Release :=
  rs.mergeSort fun a b => releaseKey a ≤ releaseKey b

/-- The pipeline steps of `main` up to enrichment: normalize in fetch
order, then sort chronologically. -/
def pipelineRecords (raw : List RawRelease) (owner repo : String) : List Release :=
  sortReleases (processReleases raw owner repo)

/-! ### Tabular exporter (`toCSV`) -/

def csvHeaders : List String :=
  ["id", "tag_name", "name", "draft", "prerelease", "author_login",
   "created_at", "published_at", "body_length", "num_assets",
   "total_asset_size", "total_asset_downloads", "target_commitish",
   "days_to_publish", "release_day_of_week", "release_hour",
   "first_release_flag", "is_major_release", "is_minor_release",
   "is_patch_release", "num_commits_since_last_release",
   "num_issues_closed", "num_pull_requests"]

/-- CSV quoting of a string field: internal quotes doubled, then wrapped. -/
def quoteCSV (s : String) : String :=
  "\"" ++ s.replace "\"" "\"\"" ++ "\""

/-- JS `String(b)` for a boolean reaching the row join. -/
def renderBool (b : Bool) : String := if b then "true" else "false"

/-- A number field that is `NaN` when its timestamp failed to parse. -/
def renderNaNInt : Option Int → String
  | none => "NaN"
  | some i => toString i

def renderNaNNat : Option Nat → String
  | none => "NaN"
  | some n => toString n

/-- A `number | null` field: `null` renders as the empty field. -/
def renderNullableNat : Option Nat → String
  | none => ""
  | some n => toString n

/-- A possibly-`undefined` string field: strings are quoted, an absent
value renders as the empty field. -/
def renderOptStr : Option String → String
  | none => ""
  | some s => quoteCSV s

/-- One data row: the source maps over `csvHeaders` and reads each field
dynamically; the field set is fixed, so this is that lookup unrolled in
header order. -/
def csvRow (r : Release) : String :=
  String.intercalate ","
    [toString r.id,
     renderOptStr r.tag_name,
     quoteCSV r.name,
     renderBool r.draft,
     renderBool r.prerelease,
     quoteCSV r.author_login,
     quoteCSV r.created_at,
     quoteCSV r.published_at,
     toString r.body_length,
     toString r.num_assets,
     toString r.total_asset_size,
     toString r.total_asset_downloads,
     quoteCSV r.target_commitish,
     renderNaNInt r.days_to_publish,
     renderNaNNat r.release_day_of_week,
     renderNaNNat r.release_hour,
     renderBool r.first_release_flag,
     renderBool r.is_major_release,
     renderBool r.is_minor_release,
     renderBool r.is_patch_release,
     renderNullableNat r.num_commits_since_last_release,
     renderNullableNat r.num_issues_closed,
     renderNullableNat r.num_pull_requests]

/-- The `lines` array of `toCSV`: one header line, then one line per
record in input order. -/
def csvLines (releases : List Release) : List String :=
  String.intercalate "," csvHeaders :: releases.map csvRow

def toCSV (releases : List Release) : String :=
  String.intercalate "\n" (csvLines releases)

/-! ### Lookup services

The HTTP collaborators are injected as response functions; each request
the source can issue is a point of one of these functions. -/

structure LookupResponse where
  ok : Bool
  /-- The numeric payload (`total_commits` / `total_count`); `none` models
  a body missing the field, which the source defaults with `?? 0`. -/
  value : Option Nat
deriving DecidableEq, Repr

structure PageResponse where
  ok : Bool
  /-- The parsed JSON body; `none` models a non-array body. -/
  items : Option (List RawRelease)
deriving DecidableEq, Repr

structure Network where
  /-- Release listing: owner, repo, per-page size, page number. -/
  listPage : String → String → Nat → Nat → PageResponse
  /-- Commit-range comparison: owner, repo, base ref, head ref. -/
  compareRange : String → String → String → String → LookupResponse
  /-- Issue search: owner, repo, closed-range start, closed-range end,
  item type (`"issue"` or `"pr"`). -/
  search : String → String → String → String → String → LookupResponse

/-- `fetchCommitCount`: empty refs short-circuit to 0 with no request; a
non-success response warns and degrades to 0; a success uses
`total_commits ?? 0`. The second component is the warning log. -/
def fetchCommitCount (net : Network) (owner repo base hd : String) : Nat × List String :=
  if base = "" || hd = "" then (0, [])
  else
    let res := net.compareRange owner repo base hd
    if !res.ok then
      (0, ["Warning: Failed to fetch commit count compare " ++ base ++ "..." ++ hd])
    else (res.value.getD 0, [])

/-- `fetchClosedCount`: a non-success response warns and degrades to 0; a
success uses `total_count ?? 0`. -/
def fetchClosedCount (net : Network) (owner repo startD endD ty : String) : Nat × List String :=
  let res := net.search owner repo startD endD ty
  if !res.ok then
    (0, ["Warning: Failed to fetch closed " ++ ty ++ " count " ++ startD ++ ".." ++ endD])
  else (res.value.getD 0, [])

/-! ### Release enricher (`enrichReleaseDetails`) -/

/-- One iteration of the enrichment loop for `curr`, whose predecessor in
the array is `prev` (`none` at index 0, where the source falls back to
`curr` itself). Returns the updated record and the warnings logged. -/
def enrichOne (net : Network) (owner repo : String) (prev : Option Release) (curr : Release) :
    Release × List String :=
  let prevR := prev.getD curr
  let baseCommit := prevR.target_commitish
  let headCommit := curr.target_commitish
  let startD0 := prevR.published_at.take 10
  let endD := curr.published_at.take 10
  let startD := if jsDateGt startD0 endD then endD else startD0
  let c := fetchCommitCount net owner repo baseCommit headCommit
  let i := fetchClosedCount net owner repo startD endD "issue"
  let p := fetchClosedCount net owner repo startD endD "pr"
  ({ curr with
      num_commits_since_last_release := some c.1
      num_issues_closed := some i.1
      num_pull_requests := some p.1 },
   c.2 ++ i.2 ++ p.2)

/-- The enrichment loop; `prev` is the already-enriched predecessor (the
source reads `releases[i-1]` from the mutated array, but only its
`target_commitish` and `published_at`, which enrichment never changes). -/
def enrichAux (net : Network) (owner repo : String) (prev : Option Release) :
    List Release → List Release × List String
  | [] => ([], [])
  | r :: rest =>
    let er := enrichOne net owner repo prev r
    let tl := enrichAux net owner repo (some er.1) rest
    (er.1 :: tl.1, er.2 ++ tl.2)

def enrichReleaseDetails (net : Network) (releases : List Release) (owner repo : String) :
    List Release × List String :=
  enrichAux net owner repo none releases

/-! ### Pagination fetcher (`fetchReleases`) -/

/-- The pagination loop with explicit fuel (the source loop is bounded
only by the service's responses; every theorem supplies enough fuel to
reach the terminating page). -/
def fetchReleasesAux (net : Network) (owner repo : String) :
    Nat → Nat → List RawRelease → Except String (List RawRelease)
  | 0, _, _ => Except.error "out of fuel"
  | fuel + 1, page, acc =>
    let res := net.listPage owner repo 100 page
    if !res.ok then
      Except.error ("Failed to fetch releases for " ++ owner ++ "/" ++ repo ++
        " page " ++ toString page)
    else
      match res.items with
      | none => Except.error "Expected array from GitHub API"
      | some data =>
        if data.isEmpty then Except.ok acc
        else fetchReleasesAux net owner repo fuel (page + 1) (acc ++ data)

def fetchReleases (net : Network) (owner repo : String) (fuel : Nat) :
    Except String (List RawRelease) :=
  fetchReleasesAux net owner repo fuel 1 []

/-- The items of a page, as appended by the loop (empty for a non-array
body, which the loop never appends anyway). -/
def pageItems (net : Network) (owner repo : String) (page : Nat) : List RawRelease :=
  ((net.listPage owner repo 100 page).items).getD []

/-! ### Spec-side classifier

Stated from the (amended) specification wording, to be compared with the
source's `computeReleaseFlags`: all-false when the current tag is absent
or contains no `major.minor.patch` pattern; major alone when the previous
tag is absent or empty; all-false when the previous tag is non-empty but
unparsable; otherwise the first differing component in
major → minor → patch order, all-false when all three agree. -/
def classifySpec (current previous : Option String) : ReleaseFlags :=
  match current with
  | none => allFalseFlags
  | some c =>
    match parseVersionTag c with
    | none => allFalseFlags
    | some cv =>
      match previous with
      | none => majorOnlyFlags
      | some p =>
        if p = "" then majorOnlyFlags
        else
          match parseVersionTag p with
          | none => allFalseFlags
          | some pv =>
            if cv.1 ≠ pv.1 then majorOnlyFlags
            else if cv.2.1 ≠ pv.2.1 then ⟨false, true, false⟩
            else if cv.2.2 ≠ pv.2.2 then ⟨false, false, true⟩
            else allFalseFlags

/-- Number of classification flags that are set. -/
def flagsTrueCount (f : ReleaseFlags) : Nat :=
  (if f.is_major_release then 1 else 0) +
    (if f.is_minor_release then 1 else 0) +
    (if f.is_patch_release then 1 else 0)

/-! ### Concrete sample data (for counterexamples and witnesses) -/

/-- A raw release as the listing returns them, newest first: published on
Jan 8. -/
def rawDemoA : RawRelease :=
  { id := 1, tag_name := some "v1.1.0", name := some "A", draft := some false,
    prerelease := some false, author := none,
    created_at := "2021-01-08T00:00:00Z", published_at := "2021-01-08T00:00:00Z",
    body := none, assets := none, target_commitish := some "main" }

/-- The older raw release, published on Jan 1 and listed second. -/
def rawDemoB : RawRelease :=
  { id := 2, tag_name := some "v1.0.0", name := some "B", draft := some false,
    prerelease := some false, author := none,
    created_at := "2021-01-01T00:00:00Z", published_at := "2021-01-01T00:00:00Z",
    body := none, assets := none, target_commitish := some "main" }

/-- A normalized release with the given id, publish instant and target
ref; every other field at its default. -/
def relDemo (i : Int) (pub tc : String) : Release :=
  { id := i, tag_name := none, name := "", draft := false, prerelease := false,
    author_login := "", created_at := pub, published_at := pub, body_length := 0,
    num_assets := 0, total_asset_size := 0, total_asset_downloads := 0,
    target_commitish := tc, days_to_publish := some 0, release_day_of_week := none,
    release_hour := none, first_release_flag := false, is_major_release := false,
    is_minor_release := false, is_patch_release := false,
    num_commits_since_last_release := none, num_issues_closed := none,
    num_pull_requests := none }

/-- A raw release with every optional field absent. -/
def rawBare : RawRelease :=
  { id := 9, tag_name := none, name := none, draft := none, prerelease := none,
    author := none, created_at := "2021-01-01T00:00:00Z",
    published_at := "2021-01-01T00:00:00Z", body := none, assets := none,
    target_commitish := none }

/-- A service whose secondary lookups all answer with a non-success
status. -/
def netFail : Network :=
  { listPage := fun _ _ _ _ => ⟨true, some []⟩
    compareRange := fun _ _ _ _ => ⟨false, none⟩
    search := fun _ _ _ _ _ => ⟨false, none⟩ }

/-- A service with one non-empty listing page followed by empty pages,
and successful secondary lookups. -/
def netPages : Network :=
  { listPage := fun _ _ _ page =>
      if page = 1 then ⟨true, some [rawDemoA, rawDemoB]⟩ else ⟨true, some []⟩
    compareRange := fun _ _ _ _ => ⟨true, some 5⟩
    search := fun _ _ _ _ _ => ⟨true, some 3⟩ }

/-! ## Theorems -/

/-! ### Version classifier -/

theorem crf_eq_classifySpec (c p : Option String) :
    computeReleaseFlags c p = classifySpec c p := by
  cases c with
  | none => rfl
  | some s =>
    by_cases hs : s = ""
    · subst hs; cases p <;> rfl
    · have hb : (s == "") = false := by simp [hs]
      simp only [computeReleaseFlags, classifySpec, jsFalsyStr, hb, Option.getD,
        Bool.false_eq_true, if_false]
      cases hps : parseVersionTag s with
      | none => rfl
      | some cv =>
        cases p with
        | none => rfl
        | some t =>
          by_cases ht : t = ""
          · subst ht; rfl
          · have hbt : (t == "") = false := by simp [ht]
            simp only [jsFalsyStr, hbt, Bool.false_eq_true, if_false, ht, Option.getD]
            cases parseVersionTag t <;> rfl

theorem crf_at_most_one (c p : Option String) :
    flagsTrueCount (computeReleaseFlags c p) ≤ 1 := by
  rw [crf_eq_classifySpec]
  unfold classifySpec
  repeat' split
  all_goals decide

/-- C2 counterexample: with current tag `"1.0.0"` and previous tag `""`,
the previous tag is unparsable (no `major.minor.patch` pattern), yet the
source returns major-only rather than the all-false the claim requires:
the `!prevTag` check treats an empty previous tag as an absent one. -/
theorem crf_empty_prev_counterexample :
    parseVersionTag "" = none ∧
    computeReleaseFlags (some "1.0.0") (some "") = majorOnlyFlags ∧
    computeReleaseFlags (some "1.0.0") (some "") ≠ allFalseFlags := by
  decide

/-- C2 (amended): `computeReleaseFlags` returns all-false when the
current tag is absent or contains no version pattern; major alone when
the previous tag is absent **or empty**; all-false when the previous tag
is non-empty but unparsable; otherwise the flag of the first differing
component in major → minor → patch order, all-false when all three
components agree; and in every case at most one flag is set. -/
theorem computeReleaseFlags_correct (currTag prevTag : Option String) :
    computeReleaseFlags currTag prevTag = classifySpec currTag prevTag ∧
    flagsTrueCount (computeReleaseFlags currTag prevTag) ≤ 1 :=
  ⟨crf_eq_classifySpec currTag prevTag, crf_at_most_one currTag prevTag⟩

/-! ### Tabular exporter -/

/-- C4 counterexample: the header row has 23 columns, not the 22 the
claim states (the claimed column list itself has 23 names). -/
theorem csvHeaders_not_22 :
    csvHeaders.length = 23 ∧ ¬ csvHeaders.length = 22 := by decide

/-- C4 (amended): the table is one header row of the fixed 23-column
list — id, tag_name, name, draft, prerelease, author_login, created_at,
published_at, body_length, num_assets, total_asset_size,
total_asset_downloads, target_commitish, days_to_publish,
release_day_of_week, release_hour, first_release_flag, is_major_release,
is_minor_release, is_patch_release, num_commits_since_last_release,
num_issues_closed, num_pull_requests — followed by one row per record in
input order. -/
theorem toCSV_table_shape (releases : List Release) :
    csvHeaders =
      ["id", "tag_name", "name", "draft", "prerelease", "author_login",
       "created_at", "published_at", "body_length", "num_assets",
       "total_asset_size", "total_asset_downloads", "target_commitish",
       "days_to_publish", "release_day_of_week", "release_hour",
       "first_release_flag", "is_major_release", "is_minor_release",
       "is_patch_release", "num_commits_since_last_release",
       "num_issues_closed", "num_pull_requests"] ∧
    csvHeaders.length = 23 ∧
    (csvLines releases).head? = some (String.intercalate "," csvHeaders) ∧
    (csvLines releases).tail = releases.map csvRow ∧
    (csvLines releases).length = releases.length + 1 ∧
    toCSV releases = String.intercalate "\n" (csvLines releases) := by
  refine ⟨rfl, by decide, rfl, rfl, ?_, rfl⟩
  simp [csvLines]

/-! ### Normalize-then-sort pipeline (`first_release_flag`) -/

theorem processAux_flag_false (l : List RawRelease) :
    ∀ prev, ∀ r ∈ processAux prev false l, r.first_release_flag = false := by
  induction l with
  | nil => intro prev r hr; simp [processAux] at hr
  | cons a tl ih =>
    intro prev r hr
    rcases List.mem_cons.mp hr with h | h
    · subst h; rfl
    · exact ih (some a) r h

theorem processReleases_flag_count (raw : List RawRelease) (owner repo : String)
    (h : raw ≠ []) :
    (processReleases raw owner repo).countP (fun r => r.first_release_flag) = 1 := by
  cases raw with
  | nil => exact absurd rfl h
  | cons a tl =>
    show (processOne true none a :: processAux (some a) false tl).countP _ = 1
    rw [List.countP_cons]
    have hz : (processAux (some a) false tl).countP (fun r => r.first_release_flag) = 0 := by
      rw [List.countP_eq_zero]
      intro r hr
      simp [processAux_flag_false tl (some a) r hr]
    have h1 : (processOne true none a).first_release_flag = true := rfl
    simp [hz, h1]

/-- C1 counterexample: two raw releases listed newest-first (published
Jan 8, then Jan 1) run through `processReleases` and the chronological
sort; the earliest record of the result carries
`first_release_flag = false`, and the flag sits on the latest record —
the flag marks fetch-order index 0, not the earliest `published_at`. -/
theorem pipeline_first_flag_not_earliest :
    (pipelineRecords [rawDemoA, rawDemoB] "o" "r").map
        (fun r => (r.published_at, r.first_release_flag)) =
      [("2021-01-01T00:00:00Z", false), ("2021-01-08T00:00:00Z", true)] := by
  simp only [pipelineRecords, sortReleases]
  simp +decide [List.mergeSort, processReleases, processAux]

/-- C1 (amended): for every non-empty raw input, exactly one record of
the sorted pipeline output has `first_release_flag = true` — the record
normalized from raw index 0 — but it need not be the one with the
earliest `published_at` (it is only when the raw listing is already in
chronological order). -/
theorem pipeline_unique_first_flag (raw : List RawRelease) (owner repo : String)
    (h : raw ≠ []) :
    (pipelineRecords raw owner repo).countP (fun r => r.first_release_flag) = 1 := by
  unfold pipelineRecords sortReleases
  rw [(List.mergeSort_perm (processReleases raw owner repo) _).countP_eq]
  exact processReleases_flag_count raw owner repo h

/-- C1 witness: the amended theorem applied to a one-element raw list. -/
theorem pipeline_unique_first_flag_witness :
    ¬([rawDemoA] = ([] : List RawRelease)) ∧
    (pipelineRecords [rawDemoA] "o" "r").countP (fun r => r.first_release_flag) = 1 :=
  ⟨by decide, pipeline_unique_first_flag [rawDemoA] "o" "r" (by decide)⟩

/-! ### Release enricher: structural lemmas -/

theorem enrichOne_target (net : Network) (o r : String) (prev : Option Release)
    (curr : Release) :
    ((enrichOne net o r prev curr).1).target_commitish = curr.target_commitish := rfl

theorem enrichOne_published (net : Network) (o r : String) (prev : Option Release)
    (curr : Release) :
    ((enrichOne net o r prev curr).1).published_at = curr.published_at := rfl

/-- `enrichOne` reads its predecessor only through `target_commitish` and
`published_at`. -/
theorem enrichOne_prev_congr (net : Network) (o r : String) (p q : Option Release)
    (curr : Release)
    (h1 : (p.getD curr).target_commitish = (q.getD curr).target_commitish)
    (h2 : (p.getD curr).published_at = (q.getD curr).published_at) :
    enrichOne net o r p curr = enrichOne net o r q curr := by
  simp only [enrichOne, h1, h2]

theorem enrichAux_prev_congr (net : Network) (o r : String) (p q : Option Release)
    (l : List Release)
    (h1 : ∀ x, (p.getD x).target_commitish = (q.getD x).target_commitish)
    (h2 : ∀ x, (p.getD x).published_at = (q.getD x).published_at) :
    enrichAux net o r p l = enrichAux net o r q l := by
  cases l with
  | nil => rfl
  | cons x tl =>
    simp only [enrichAux]
    rw [enrichOne_prev_congr net o r p q x (h1 x) (h2 x)]

/-- Splitting the enrichment loop around a distinguished element: the
predecessor seen by `cur` is the last element of `pre` (or the incoming
`prev` when `pre` is empty); its being already enriched is immaterial by
`enrichOne_prev_congr`. -/
theorem enrichAux_append (net : Network) (o r : String) (cur : Release)
    (post : List Release) :
    ∀ (pre : List Release) (prev : Option Release),
    enrichAux net o r prev (pre ++ cur :: post) =
      ((enrichAux net o r prev pre).1 ++
         (enrichAux net o r ((pre.getLast?).or prev) (cur :: post)).1,
       (enrichAux net o r prev pre).2 ++
         (enrichAux net o r ((pre.getLast?).or prev) (cur :: post)).2) := by
  intro pre
  induction pre with
  | nil => intro prev; simp [enrichAux]
  | cons x pre ih =>
    intro prev
    have hstep : enrichAux net o r prev ((x :: pre) ++ cur :: post) =
        ((enrichOne net o r prev x).1 ::
           (enrichAux net o r (some (enrichOne net o r prev x).1) (pre ++ cur :: post)).1,
         (enrichOne net o r prev x).2 ++
           (enrichAux net o r (some (enrichOne net o r prev x).1) (pre ++ cur :: post)).2) := rfl
    have hpre : enrichAux net o r prev (x :: pre) =
        ((enrichOne net o r prev x).1 ::
           (enrichAux net o r (some (enrichOne net o r prev x).1) pre).1,
         (enrichOne net o r prev x).2 ++
           (enrichAux net o r (some (enrichOne net o r prev x).1) pre).2) := rfl
    have hprev : enrichAux net o r
          ((pre.getLast?).or (some (enrichOne net o r prev x).1)) (cur :: post) =
        enrichAux net o r (((x :: pre).getLast?).or prev) (cur :: post) := by
      cases pre with
      | nil =>
        exact enrichAux_prev_congr net o r _ _ _ (fun y => rfl) (fun y => rfl)
      | cons z pre2 =>
        obtain ⟨y, hy⟩ := Option.isSome_iff_exists.mp
          (List.getLast?_isSome.mpr (List.cons_ne_nil z pre2))
        rw [List.getLast?_cons_cons, hy]
        simp [Option.or]
    rw [hstep, ih (some (enrichOne net o r prev x).1), hprev]
    simp [hpre, List.append_assoc]

theorem enrichAux_length (net : Network) (o r : String) :
    ∀ (l : List Release) (prev : Option Release),
    (enrichAux net o r prev l).1.length = l.length := by
  intro l
  induction l with
  | nil => intro prev; rfl
  | cons x tl ih => intro prev; simp [enrichAux, ih]

theorem enrichAux_all_some (net : Network) (o r : String) :
    ∀ (l : List Release) (prev : Option Release), ∀ x ∈ (enrichAux net o r prev l).1,
    x.num_commits_since_last_release.isSome ∧ x.num_issues_closed.isSome ∧
      x.num_pull_requests.isSome := by
  intro l
  induction l with
  | nil => intro prev x hx; simp [enrichAux] at hx
  | cons y tl ih =>
    intro prev x hx
    rcases List.mem_cons.mp hx with h | h
    · subst h; exact ⟨rfl, rfl, rfl⟩
    · exact ih (some (enrichOne net o r prev y).1) x h

/-- The enriched record at the position of `cur`. -/
theorem enrich_getElem (net : Network) (o r : String) (pre : List Release)
    (cur : Release) (post : List Release) :
    (enrichReleaseDetails net (pre ++ cur :: post) o r).1[pre.length]? =
      some (enrichOne net o r (pre.getLast?) cur).1 := by
  unfold enrichReleaseDetails
  rw [enrichAux_append net o r cur post pre none]
  have hlen : (enrichAux net o r none pre).1.length = pre.length :=
    enrichAux_length net o r pre none
  rw [List.getElem?_append_right hlen.le]
  simp [hlen, enrichAux, Option.or_none]

/-- A warning logged while enriching `cur` is in the run's log. -/
theorem enrich_warning_mem (net : Network) (o r : String) (pre : List Release)
    (cur : Release) (post : List Release) (w : String)
    (hw : w ∈ (enrichOne net o r (pre.getLast?) cur).2) :
    w ∈ (enrichReleaseDetails net (pre ++ cur :: post) o r).2 := by
  unfold enrichReleaseDetails
  rw [enrichAux_append net o r cur post pre none]
  simp only [enrichAux, Option.or_none]
  exact List.mem_append_right _ (List.mem_append_left _ hw)

/-- C9: enrichment preserves the number and order of records (stated for
the record at every position of any decomposition), leaves all seventeen
non-activity fields of that record unchanged, and fills the three
activity fields. -/
theorem enrich_frame (net : Network) (owner repo : String)
    (pre post : List Release) (cur : Release) :
    (enrichReleaseDetails net (pre ++ cur :: post) owner repo).1.length =
      (pre ++ cur :: post).length ∧
    ∃ c, (enrichReleaseDetails net (pre ++ cur :: post) owner repo).1[pre.length]? = some c ∧
      c.id = cur.id ∧ c.tag_name = cur.tag_name ∧ c.name = cur.name ∧
      c.draft = cur.draft ∧ c.prerelease = cur.prerelease ∧
      c.author_login = cur.author_login ∧ c.created_at = cur.created_at ∧
      c.published_at = cur.published_at ∧ c.body_length = cur.body_length ∧
      c.num_assets = cur.num_assets ∧ c.total_asset_size = cur.total_asset_size ∧
      c.total_asset_downloads = cur.total_asset_downloads ∧
      c.target_commitish = cur.target_commitish ∧
      c.days_to_publish = cur.days_to_publish ∧
      c.release_day_of_week = cur.release_day_of_week ∧
      c.release_hour = cur.release_hour ∧
      c.first_release_flag = cur.first_release_flag ∧
      c.is_major_release = cur.is_major_release ∧
      c.is_minor_release = cur.is_minor_release ∧
      c.is_patch_release = cur.is_patch_release ∧
      c.num_commits_since_last_release.isSome ∧ c.num_issues_closed.isSome ∧
      c.num_pull_requests.isSome :=
  ⟨enrichAux_length net owner repo _ none,
   (enrichOne net owner repo (pre.getLast?) cur).1,
   enrich_getElem net owner repo pre cur post,
   rfl, rfl, rfl, rfl, rfl, rfl, rfl, rfl, rfl, rfl, rfl, rfl, rfl, rfl, rfl,
   rfl, rfl, rfl, rfl, rfl, rfl, rfl, rfl⟩

/-- C10: an empty base or head ref short-circuits `fetchCommitCount` to
0 with no warning and no dependence on the lookup service; hence a
record whose `target_commitish` is the empty string always ends up with
`num_commits_since_last_release = 0`, whatever the service would have
answered. -/
theorem fetchCommitCount_empty_ref (net : Network) (owner repo base hd : String)
    (pre post : List Release) (cur : Release) :
    (base = "" ∨ hd = "" → fetchCommitCount net owner repo base hd = (0, [])) ∧
    (cur.target_commitish = "" →
      ((enrichReleaseDetails net (pre ++ cur :: post) owner repo).1.map
          Release.num_commits_since_last_release)[pre.length]? = some (some 0)) := by
  constructor
  · intro h
    rcases h with h | h <;> simp [fetchCommitCount, h]
  · intro h
    rw [List.getElem?_map, enrich_getElem net owner repo pre cur post]
    have hrfl : (enrichOne net owner repo (pre.getLast?) cur).1.num_commits_since_last_release =
        some (fetchCommitCount net owner repo
          ((pre.getLast?).getD cur).target_commitish cur.target_commitish).1 := rfl
    simp [hrfl, h, fetchCommitCount]

/-- C10 witness: the theorem at an empty base ref and a record whose
target ref is empty. -/
theorem fetchCommitCount_empty_ref_witness :
    ("" = "" ∨ "x" = "") ∧
    fetchCommitCount netPages "o" "r" "" "x" = (0, []) ∧
    (relDemo 2 "2021-01-08T00:00:00Z" "").target_commitish = "" ∧
    ((enrichReleaseDetails netPages
        [relDemo 1 "2021-01-01T00:00:00Z" "b", relDemo 2 "2021-01-08T00:00:00Z" ""]
        "o" "r").1.map Release.num_commits_since_last_release)[1]? = some (some 0) := by
  have h := fetchCommitCount_empty_ref netPages "o" "r" "" "x"
    [relDemo 1 "2021-01-01T00:00:00Z" "b"] [] (relDemo 2 "2021-01-08T00:00:00Z" "")
  exact ⟨Or.inl rfl, h.1 (Or.inl rfl), rfl, h.2 rfl⟩

/-- C5: the metrics recorded for the release at any position are exactly
what the lookups answer for base = the predecessor's `target_commitish`
(the record's own at position 0), head = the record's own
`target_commitish`, and the day-granular window from the predecessor's
publish date (the record's own at position 0) to the record's publish
date, with the start clamped to the end whenever it exceeds it. -/
theorem enrich_window_parameters (net : Network) (owner repo : String)
    (pre post : List Release) (cur : Release) :
    ((enrichReleaseDetails net (pre ++ cur :: post) owner repo).1.map
        Release.num_commits_since_last_release)[pre.length]? =
      some (some (fetchCommitCount net owner repo
        ((pre.getLast?).getD cur).target_commitish cur.target_commitish).1) ∧
    ((enrichReleaseDetails net (pre ++ cur :: post) owner repo).1.map
        Release.num_issues_closed)[pre.length]? =
      some (some (fetchClosedCount net owner repo
        (if jsDateGt (((pre.getLast?).getD cur).published_at.take 10)
            (cur.published_at.take 10)
         then cur.published_at.take 10
         else ((pre.getLast?).getD cur).published_at.take 10)
        (cur.published_at.take 10) "issue").1) ∧
    ((enrichReleaseDetails net (pre ++ cur :: post) owner repo).1.map
        Release.num_pull_requests)[pre.length]? =
      some (some (fetchClosedCount net owner repo
        (if jsDateGt (((pre.getLast?).getD cur).published_at.take 10)
            (cur.published_at.take 10)
         then cur.published_at.take 10
         else ((pre.getLast?).getD cur).published_at.take 10)
        (cur.published_at.take 10) "pr").1) ∧
    (jsDateGt (((pre.getLast?).getD cur).published_at.take 10)
        (cur.published_at.take 10) = true →
      (if jsDateGt (((pre.getLast?).getD cur).published_at.take 10)
          (cur.published_at.take 10)
       then cur.published_at.take 10
       else ((pre.getLast?).getD cur).published_at.take 10) =
        cur.published_at.take 10) := by
  refine ⟨?_, ?_, ?_, fun h => if_pos h⟩ <;>
    · rw [List.getElem?_map, enrich_getElem net owner repo pre cur post]
      rfl

/-- C5 witness: the theorem at a two-record sequence whose predecessor
was published after the current record, so the clamp fires. -/
theorem enrich_window_parameters_witness :
    jsDateGt ((relDemo 1 "2021-02-01T00:00:00Z" "b").published_at.take 10)
        ((relDemo 2 "2021-01-01T00:00:00Z" "t").published_at.take 10) = true ∧
    (if jsDateGt ((relDemo 1 "2021-02-01T00:00:00Z" "b").published_at.take 10)
        ((relDemo 2 "2021-01-01T00:00:00Z" "t").published_at.take 10)
     then (relDemo 2 "2021-01-01T00:00:00Z" "t").published_at.take 10
     else (relDemo 1 "2021-02-01T00:00:00Z" "b").published_at.take 10) =
      (relDemo 2 "2021-01-01T00:00:00Z" "t").published_at.take 10 ∧
    ((enrichReleaseDetails netPages
        [relDemo 1 "2021-02-01T00:00:00Z" "b", relDemo 2 "2021-01-01T00:00:00Z" "t"]
        "o" "r").1.map Release.num_issues_closed)[1]? =
      some (some (fetchClosedCount netPages "o" "r"
        (if jsDateGt ((relDemo 1 "2021-02-01T00:00:00Z" "b").published_at.take 10)
            ((relDemo 2 "2021-01-01T00:00:00Z" "t").published_at.take 10)
         then (relDemo 2 "2021-01-01T00:00:00Z" "t").published_at.take 10
         else (relDemo 1 "2021-02-01T00:00:00Z" "b").published_at.take 10)
        ((relDemo 2 "2021-01-01T00:00:00Z" "t").published_at.take 10) "issue").1) := by
  have h := enrich_window_parameters netPages "o" "r"
    [relDemo 1 "2021-02-01T00:00:00Z" "b"] [] (relDemo 2 "2021-01-01T00:00:00Z" "t")
  exact ⟨by decide, h.2.2.2 (by decide), h.2.1⟩

/-- C3: a failed (non-success) commit-range or closed-item lookup for
any release records the corresponding metric as 0 and logs a warning,
while enrichment still fills every metric of every record and the run
completes for the whole list. -/
theorem enrich_lookup_failure_degrades (net : Network) (owner repo : String)
    (pre post : List Release) (cur : Release) :
    (enrichReleaseDetails net (pre ++ cur :: post) owner repo).1.length =
      (pre ++ cur :: post).length ∧
    (∀ x ∈ (enrichReleaseDetails net (pre ++ cur :: post) owner repo).1,
      x.num_commits_since_last_release.isSome ∧ x.num_issues_closed.isSome ∧
        x.num_pull_requests.isSome) ∧
    (¬ ((pre.getLast?).getD cur).target_commitish = "" →
      ¬ cur.target_commitish = "" →
      (net.compareRange owner repo ((pre.getLast?).getD cur).target_commitish
          cur.target_commitish).ok = false →
      ((enrichReleaseDetails net (pre ++ cur :: post) owner repo).1.map
          Release.num_commits_since_last_release)[pre.length]? = some (some 0) ∧
      "Warning: Failed to fetch commit count compare " ++
          ((pre.getLast?).getD cur).target_commitish ++ "..." ++ cur.target_commitish ∈
        (enrichReleaseDetails net (pre ++ cur :: post) owner repo).2) ∧
    ((net.search owner repo
        (if jsDateGt (((pre.getLast?).getD cur).published_at.take 10)
            (cur.published_at.take 10)
         then cur.published_at.take 10
         else ((pre.getLast?).getD cur).published_at.take 10)
        (cur.published_at.take 10) "issue").ok = false →
      ((enrichReleaseDetails net (pre ++ cur :: post) owner repo).1.map
          Release.num_issues_closed)[pre.length]? = some (some 0) ∧
      "Warning: Failed to fetch closed " ++ "issue" ++ " count " ++
          (if jsDateGt (((pre.getLast?).getD cur).published_at.take 10)
              (cur.published_at.take 10)
           then cur.published_at.take 10
           else ((pre.getLast?).getD cur).published_at.take 10) ++ ".." ++
          cur.published_at.take 10 ∈
        (enrichReleaseDetails net (pre ++ cur :: post) owner repo).2) ∧
    ((net.search owner repo
        (if jsDateGt (((pre.getLast?).getD cur).published_at.take 10)
            (cur.published_at.take 10)
         then cur.published_at.take 10
         else ((pre.getLast?).getD cur).published_at.take 10)
        (cur.published_at.take 10) "pr").ok = false →
      ((enrichReleaseDetails net (pre ++ cur :: post) owner repo).1.map
          Release.num_pull_requests)[pre.length]? = some (some 0) ∧
      "Warning: Failed to fetch closed " ++ "pr" ++ " count " ++
          (if jsDateGt (((pre.getLast?).getD cur).published_at.take 10)
              (cur.published_at.take 10)
           then cur.published_at.take 10
           else ((pre.getLast?).getD cur).published_at.take 10) ++ ".." ++
          cur.published_at.take 10 ∈
        (enrichReleaseDetails net (pre ++ cur :: post) owner repo).2) := by
  refine ⟨enrichAux_length net owner repo _ none, enrichAux_all_some net owner repo _ none,
    ?_, ?_, ?_⟩
  · intro hb hh hok
    constructor
    · rw [List.getElem?_map, enrich_getElem net owner repo pre cur post]
      have hrfl : (enrichOne net owner repo (pre.getLast?) cur).1.num_commits_since_last_release =
          some (fetchCommitCount net owner repo
            ((pre.getLast?).getD cur).target_commitish cur.target_commitish).1 := rfl
      simp [hrfl, fetchCommitCount, hb, hh, hok]
    · apply enrich_warning_mem
      have hrfl : (enrichOne net owner repo (pre.getLast?) cur).2 =
          (fetchCommitCount net owner repo
            ((pre.getLast?).getD cur).target_commitish cur.target_commitish).2 ++
          (fetchClosedCount net owner repo
            (if jsDateGt (((pre.getLast?).getD cur).published_at.take 10)
                (cur.published_at.take 10)
             then cur.published_at.take 10
             else ((pre.getLast?).getD cur).published_at.take 10)
            (cur.published_at.take 10) "issue").2 ++
          (fetchClosedCount net owner repo
            (if jsDateGt (((pre.getLast?).getD cur).published_at.take 10)
                (cur.published_at.take 10)
             then cur.published_at.take 10
             else ((pre.getLast?).getD cur).published_at.take 10)
            (cur.published_at.take 10) "pr").2 := rfl
      rw [hrfl]
      simp [fetchCommitCount, hb, hh, hok]
  · intro hok
    constructor
    · rw [List.getElem?_map, enrich_getElem net owner repo pre cur post]
      have hrfl : (enrichOne net owner repo (pre.getLast?) cur).1.num_issues_closed =
          some (fetchClosedCount net owner repo
            (if jsDateGt (((pre.getLast?).getD cur).published_at.take 10)
                (cur.published_at.take 10)
             then cur.published_at.take 10
             else ((pre.getLast?).getD cur).published_at.take 10)
            (cur.published_at.take 10) "issue").1 := rfl
      simp [hrfl, fetchClosedCount, hok]
    · apply enrich_warning_mem
      have hrfl : (enrichOne net owner repo (pre.getLast?) cur).2 =
          (fetchCommitCount net owner repo
            ((pre.getLast?).getD cur).target_commitish cur.target_commitish).2 ++
          (fetchClosedCount net owner repo
            (if jsDateGt (((pre.getLast?).getD cur).published_at.take 10)
                (cur.published_at.take 10)
             then cur.published_at.take 10
             else ((pre.getLast?).getD cur).published_at.take 10)
            (cur.published_at.take 10) "issue").2 ++
          (fetchClosedCount net owner repo
            (if jsDateGt (((pre.getLast?).getD cur).published_at.take 10)
                (cur.published_at.take 10)
             then cur.published_at.take 10
             else ((pre.getLast?).getD cur).published_at.take 10)
            (cur.published_at.take 10) "pr").2 := rfl
      rw [hrfl]
      simp [fetchClosedCount, hok]
  · intro hok
    constructor
    · rw [List.getElem?_map, enrich_getElem net owner repo pre cur post]
      have hrfl : (enrichOne net owner repo (pre.getLast?) cur).1.num_pull_requests =
          some (fetchClosedCount net owner repo
            (if jsDateGt (((pre.getLast?).getD cur).published_at.take 10)
                (cur.published_at.take 10)
             then cur.published_at.take 10
             else ((pre.getLast?).getD cur).published_at.take 10)
            (cur.published_at.take 10) "pr").1 := rfl
      simp [hrfl, fetchClosedCount, hok]
    · apply enrich_warning_mem
      have hrfl : (enrichOne net owner repo (pre.getLast?) cur).2 =
          (fetchCommitCount net owner repo
            ((pre.getLast?).getD cur).target_commitish cur.target_commitish).2 ++
          (fetchClosedCount net owner repo
            (if jsDateGt (((pre.getLast?).getD cur).published_at.take 10)
                (cur.published_at.take 10)
             then cur.published_at.take 10
             else ((pre.getLast?).getD cur).published_at.take 10)
            (cur.published_at.take 10) "issue").2 ++
          (fetchClosedCount net owner repo
            (if jsDateGt (((pre.getLast?).getD cur).published_at.take 10)
                (cur.published_at.take 10)
             then cur.published_at.take 10
             else ((pre.getLast?).getD cur).published_at.take 10)
            (cur.published_at.take 10) "pr").2 := rfl
      rw [hrfl]
      simp [fetchClosedCount, hok]

/-- C3 witness: the theorem at a two-record sequence against a service
whose lookups all fail. -/
theorem enrich_lookup_failure_degrades_witness :
    ((enrichReleaseDetails netFail
        [relDemo 1 "2021-01-01T00:00:00Z" "b", relDemo 2 "2021-01-08T00:00:00Z" "t"]
        "o" "r").1.map Release.num_commits_since_last_release)[1]? = some (some 0) ∧
    ((enrichReleaseDetails netFail
        [relDemo 1 "2021-01-01T00:00:00Z" "b", relDemo 2 "2021-01-08T00:00:00Z" "t"]
        "o" "r").1.map Release.num_issues_closed)[1]? = some (some 0) ∧
    ((enrichReleaseDetails netFail
        [relDemo 1 "2021-01-01T00:00:00Z" "b", relDemo 2 "2021-01-08T00:00:00Z" "t"]
        "o" "r").1.map Release.num_pull_requests)[1]? = some (some 0) ∧
    "Warning: Failed to fetch commit count compare " ++ "b" ++ "..." ++ "t" ∈
      (enrichReleaseDetails netFail
        [relDemo 1 "2021-01-01T00:00:00Z" "b", relDemo 2 "2021-01-08T00:00:00Z" "t"]
        "o" "r").2 := by
  have h := enrich_lookup_failure_degrades netFail "o" "r"
    [relDemo 1 "2021-01-01T00:00:00Z" "b"] [] (relDemo 2 "2021-01-08T00:00:00Z" "t")
  refine ⟨(h.2.2.1 (by decide) (by decide) rfl).1, (h.2.2.2.1 rfl).1,
    (h.2.2.2.2 rfl).1, (h.2.2.1 (by decide) (by decide) rfl).2⟩

/-! ### Pagination fetcher -/

/-- Running the loop across `n` successful non-empty pages appends their
items in order and consumes `n` units of fuel. -/
theorem fetchReleasesAux_shift (net : Network) (o r : String) :
    ∀ (n page : Nat) (acc : List RawRelease) (fuel : Nat),
    (∀ k, k < n → (net.listPage o r 100 (page + k)).ok = true ∧
        ∃ l, (net.listPage o r 100 (page + k)).items = some l ∧ l ≠ []) →
    n ≤ fuel →
    fetchReleasesAux net o r fuel page acc =
      fetchReleasesAux net o r (fuel - n) (page + n)
        (acc ++ (List.range n).flatMap fun k => pageItems net o r (page + k)) := by
  intro n
  induction n with
  | zero => intro page acc fuel hgood hfuel; simp
  | succ m ih =>
    intro page acc fuel hgood hfuel
    obtain ⟨hok, l, hl, hne⟩ := hgood 0 (Nat.succ_pos m)
    rw [Nat.add_zero] at hok hl
    match fuel, hfuel with
    | f + 1, hf =>
      have hstep : fetchReleasesAux net o r (f + 1) page acc =
          fetchReleasesAux net o r f (page + 1) (acc ++ l) := by
        simp [fetchReleasesAux, hok, hl, List.isEmpty_eq_false.mpr hne]
      have hgood1 : ∀ k, k < m → (net.listPage o r 100 (page + 1 + k)).ok = true ∧
          ∃ l2, (net.listPage o r 100 (page + 1 + k)).items = some l2 ∧ l2 ≠ [] := by
        intro k hk
        have h := hgood (k + 1) (Nat.succ_lt_succ hk)
        rwa [show page + (k + 1) = page + 1 + k by omega] at h
      rw [hstep, ih (page + 1) (acc ++ l) f hgood1 (Nat.le_of_succ_le_succ hf)]
      have harith : page + 1 + m = page + (m + 1) := by omega
      have hfuel2 : f - m = f + 1 - (m + 1) := by omega
      have hitems : (acc ++ l) ++ ((List.range m).flatMap fun k =>
            pageItems net o r (page + 1 + k)) =
          acc ++ (List.range (m + 1)).flatMap fun k => pageItems net o r (page + k) := by
        rw [List.range_succ_eq_map, List.flatMap_cons, List.flatMap_map, List.append_assoc]
        have hl0 : pageItems net o r (page + 0) = l := by
          simp [pageItems, hl]
        have hfun : (fun a : Nat => pageItems net o r (page + a.succ)) =
            fun k => pageItems net o r (page + 1 + k) := by
          funext a
          congr 1
          omega
        rw [hl0, hfun]
      rw [harith, hfuel2, hitems]

/-- C6: the fetcher requests pages 1, 2, … of fixed size 100; if the
first `n` pages are successful and non-empty and page `n + 1` is
successful and empty, it returns exactly the concatenation of the items
of pages 1..n in order; if instead page `n + 1` answers with a
non-success status, it fails right there with the page's error and no
partial result, whatever later pages would have said. -/
theorem fetchReleases_pages (net : Network) (owner repo : String) (n fuel : Nat)
    (hgood : ∀ k, k < n → (net.listPage owner repo 100 (1 + k)).ok = true ∧
        ∃ l, (net.listPage owner repo 100 (1 + k)).items = some l ∧ l ≠ [])
    (hfuel : n < fuel) :
    ((net.listPage owner repo 100 (1 + n)).ok = true →
      (net.listPage owner repo 100 (1 + n)).items = some [] →
      fetchReleases net owner repo fuel =
        Except.ok ((List.range n).flatMap fun k => pageItems net owner repo (1 + k))) ∧
    ((net.listPage owner repo 100 (1 + n)).ok = false →
      fetchReleases net owner repo fuel =
        Except.error ("Failed to fetch releases for " ++ owner ++ "/" ++ repo ++
          " page " ++ toString (1 + n))) := by
  have hshift := fetchReleasesAux_shift net owner repo n 1 [] fuel hgood hfuel.le
  rw [List.nil_append] at hshift
  have hpos : ∃ g, fuel - n = g + 1 := ⟨fuel - n - 1, by omega⟩
  obtain ⟨g, hg⟩ := hpos
  constructor
  · intro hok hempty
    unfold fetchReleases
    rw [hshift, hg]
    simp [fetchReleasesAux, hok, hempty]
  · intro hbad
    unfold fetchReleases
    rw [hshift, hg]
    simp [fetchReleasesAux, hbad]

/-- C6 witness: the theorem at a service with one non-empty page and an
empty second page. -/
theorem fetchReleases_pages_witness :
    (1 : Nat) < 3 ∧
    fetchReleases netPages "o" "r" 3 = Except.ok [rawDemoA, rawDemoB] := by
  have hgood : ∀ k, k < 1 → (netPages.listPage "o" "r" 100 (1 + k)).ok = true ∧
      ∃ l, (netPages.listPage "o" "r" 100 (1 + k)).items = some l ∧ l ≠ [] := by
    intro k hk
    match k, hk with
    | 0, _ => exact ⟨rfl, [rawDemoA, rawDemoB], rfl, by decide⟩
  have h := (fetchReleases_pages netPages "o" "r" 1 3 hgood (by decide)).1 rfl rfl
  refine ⟨by decide, ?_⟩
  rw [h]
  congr 1

/-! ### Chronological sequencer -/

theorem releaseLe_trans (a b c : Release) :
    (releaseKey a ≤ releaseKey b : Bool) → (releaseKey b ≤ releaseKey c : Bool) →
    (releaseKey a ≤ releaseKey c : Bool) := by
  simp only [decide_eq_true_eq]
  omega

theorem releaseLe_total (a b : Release) :
    ((releaseKey a ≤ releaseKey b : Bool) || (releaseKey b ≤ releaseKey a : Bool)) = true := by
  simp only [Bool.or_eq_true, decide_eq_true_eq]
  omega

/-- C7: the sort returns a permutation of its input, ordered ascending by
the publish instant, and records with equal publish instants keep their
relative input order (the per-instant sublists are untouched). -/
theorem sortReleases_sorted_stable (rs : List Release)
    (hvalid : ∀ x ∈ rs, (jsTime x.published_at).isSome) :
    (sortReleases rs).Perm rs ∧
    (sortReleases rs).Pairwise (fun a b => ∃ ta tb,
      jsTime a.published_at = some ta ∧ jsTime b.published_at = some tb ∧ ta ≤ tb) ∧
    ∀ t : Int, (sortReleases rs).filter (fun x => jsTime x.published_at == some t) =
      rs.filter (fun x => jsTime x.published_at == some t) := by
  have hperm : (sortReleases rs).Perm rs := List.mergeSort_perm rs _
  refine ⟨hperm, ?_, ?_⟩
  · have hsorted : (sortReleases rs).Pairwise
        (fun a b => (releaseKey a ≤ releaseKey b : Bool)) :=
      List.sorted_mergeSort releaseLe_trans releaseLe_total rs
    refine hsorted.imp_of_mem ?_
    intro a b ha hb hle
    obtain ⟨ta, hta⟩ := Option.isSome_iff_exists.mp (hvalid a (hperm.mem_iff.mp ha))
    obtain ⟨tb, htb⟩ := Option.isSome_iff_exists.mp (hvalid b (hperm.mem_iff.mp hb))
    refine ⟨ta, tb, hta, htb, ?_⟩
    have := of_decide_eq_true hle
    simpa [releaseKey, hta, htb] using this
  · intro t
    set p : Release → Bool := fun x => jsTime x.published_at == some t with hp
    have hkey : ∀ x, p x = true → releaseKey x = t := by
      intro x hx
      have : jsTime x.published_at = some t := by simpa [hp] using hx
      simp [releaseKey, this]
    have hpair : (rs.filter p).Pairwise (fun a b => (releaseKey a ≤ releaseKey b : Bool)) := by
      apply List.pairwise_of_forall_mem_list
      intro a ha b hb
      have hka := hkey a (List.of_mem_filter ha)
      have hkb := hkey b (List.of_mem_filter hb)
      simp [hka, hkb]
    have hsub : List.Sublist (rs.filter p) (sortReleases rs) :=
      List.sublist_mergeSort releaseLe_trans releaseLe_total hpair (List.filter_sublist rs)
    have hsub2 : List.Sublist (rs.filter p) ((sortReleases rs).filter p) := by
      have h1 : List.Sublist ((rs.filter p).filter p) ((sortReleases rs).filter p) :=
        hsub.filter p
      rwa [List.filter_filter, show (fun a => p a && p a) = p by funext a; simp] at h1
    have hlen : ((sortReleases rs).filter p).length = (rs.filter p).length :=
      (hperm.filter p).length_eq
    exact (hsub2.eq_of_length hlen.symm).symm

/-- C7 witness: the theorem at the spec's `[T3, T1, T2]` example. -/
theorem sortReleases_sorted_stable_witness :
    (([relDemo 1 "2021-01-03T00:00:00Z" "a", relDemo 2 "2021-01-01T00:00:00Z" "b",
        relDemo 3 "2021-01-02T00:00:00Z" "c"].all
          fun x => (jsTime x.published_at).isSome) = true) ∧
    (sortReleases [relDemo 1 "2021-01-03T00:00:00Z" "a",
        relDemo 2 "2021-01-01T00:00:00Z" "b",
        relDemo 3 "2021-01-02T00:00:00Z" "c"]).Perm
      [relDemo 1 "2021-01-03T00:00:00Z" "a", relDemo 2 "2021-01-01T00:00:00Z" "b",
        relDemo 3 "2021-01-02T00:00:00Z" "c"] ∧
    (sortReleases [relDemo 1 "2021-01-03T00:00:00Z" "a",
        relDemo 2 "2021-01-01T00:00:00Z" "b",
        relDemo 3 "2021-01-02T00:00:00Z" "c"]).filter
        (fun x => jsTime x.published_at == some 1609459200000) =
      [relDemo 1 "2021-01-03T00:00:00Z" "a", relDemo 2 "2021-01-01T00:00:00Z" "b",
        relDemo 3 "2021-01-02T00:00:00Z" "c"].filter
        (fun x => jsTime x.published_at == some 1609459200000) := by
  have h := sortReleases_sorted_stable
    [relDemo 1 "2021-01-03T00:00:00Z" "a", relDemo 2 "2021-01-01T00:00:00Z" "b",
      relDemo 3 "2021-01-02T00:00:00Z" "c"] (by decide)
  exact ⟨by decide, h.1, h.2.2 1609459200000⟩

/-! ### Release normalizer -/

theorem processAux_length :
    ∀ (l : List RawRelease) (prev : Option RawRelease) (isFirst : Bool),
    (processAux prev isFirst l).length = l.length := by
  intro l
  induction l with
  | nil => intro prev isFirst; rfl
  | cons x tl ih => intro prev isFirst; simp [processAux, ih]

/-- Splitting the normalization loop around a distinguished element. -/
theorem processAux_append (r : RawRelease) (post : List RawRelease) :
    ∀ (pre : List RawRelease) (prev : Option RawRelease) (isFirst : Bool),
    processAux prev isFirst (pre ++ r :: post) =
      processAux prev isFirst pre ++
        processAux ((pre.getLast?).or prev) (isFirst && pre.isEmpty) (r :: post) := by
  intro pre
  induction pre with
  | nil => intro prev isFirst; simp [processAux]
  | cons x pre ih =>
    intro prev isFirst
    have hstep : processAux prev isFirst ((x :: pre) ++ r :: post) =
        processOne isFirst prev x :: processAux (some x) false (pre ++ r :: post) := rfl
    have hpre : processAux prev isFirst (x :: pre) =
        processOne isFirst prev x :: processAux (some x) false pre := rfl
    have hopt : ((x :: pre).getLast?).or prev = (pre.getLast?).or (some x) := by
      cases pre with
      | nil => simp
      | cons z pre2 =>
        obtain ⟨y, hy⟩ := Option.isSome_iff_exists.mp
          (List.getLast?_isSome.mpr (List.cons_ne_nil z pre2))
        rw [List.getLast?_cons_cons, hy]
        simp [Option.or]
    rw [hstep, ih (some x) false, hpre, hopt]
    simp

/-- The normalized record at the position of `r`. -/
theorem processReleases_getElem (owner repo : String) (pre : List RawRelease)
    (r : RawRelease) (post : List RawRelease) :
    (processReleases (pre ++ r :: post) owner repo)[pre.length]? =
      some (processOne pre.isEmpty (pre.getLast?) r) := by
  unfold processReleases
  rw [processAux_append r post pre none true]
  have hlen : (processAux none true pre).length = pre.length :=
    processAux_length pre none true
  rw [List.getElem?_append_right hlen.le]
  simp [hlen, processAux, Option.or_none]

/-- C8: normalization is total (it is a Lean function) and every missing
optional field degrades to its documented default: an absent asset list
yields zero asset aggregates, a null body yields `body_length = 0`, an
absent name, author login or target ref yields the empty string, and
absent draft/prerelease flags yield `false` — at every position of the
input. -/
theorem processReleases_defaults (owner repo : String) (pre post : List RawRelease)
    (r : RawRelease) :
    ∃ p, (processReleases (pre ++ r :: post) owner repo)[pre.length]? = some p ∧
      (r.assets = none → p.num_assets = 0 ∧ p.total_asset_size = 0 ∧
        p.total_asset_downloads = 0) ∧
      (r.body = none → p.body_length = 0) ∧
      (r.name = none → p.name = "") ∧
      (r.author = none → p.author_login = "") ∧
      (r.target_commitish = none → p.target_commitish = "") ∧
      (r.draft = none → p.draft = false) ∧
      (r.prerelease = none → p.prerelease = false) := by
  refine ⟨processOne pre.isEmpty (pre.getLast?) r,
    processReleases_getElem owner repo pre r post, ?_, ?_, ?_, ?_, ?_, ?_, ?_⟩ <;>
    · intro h
      simp [processOne, h]

/-- C8 witness: the theorem at a raw record with every optional field
absent. -/
theorem processReleases_defaults_witness :
    ((processReleases [rawBare] "o" "r").map Release.num_assets)[0]? = some 0 ∧
    ((processReleases [rawBare] "o" "r").map Release.total_asset_size)[0]? = some 0 ∧
    ((processReleases [rawBare] "o" "r").map Release.total_asset_downloads)[0]? = some 0 ∧
    ((processReleases [rawBare] "o" "r").map Release.body_length)[0]? = some 0 ∧
    ((processReleases [rawBare] "o" "r").map Release.name)[0]? = some "" ∧
    ((processReleases [rawBare] "o" "r").map Release.author_login)[0]? = some "" ∧
    ((processReleases [rawBare] "o" "r").map Release.target_commitish)[0]? = some "" ∧
    ((processReleases [rawBare] "o" "r").map Release.draft)[0]? = some false ∧
    ((processReleases [rawBare] "o" "r").map Release.prerelease)[0]? = some false := by
  obtain ⟨p, hp, h1, h2, h3, h4, h5, h6, h7⟩ :=
    processReleases_defaults "o" "r" [] [] rawBare
  simp only [List.nil_append, List.length_nil] at hp
  obtain ⟨ha1, ha2, ha3⟩ := h1 rfl
  simp [List.getElem?_map, hp, ha1, ha2, ha3, h2 rfl, h3 rfl, h4 rfl, h5 rfl,
    h6 rfl, h7 rfl]

end Gather
